import Mathlib

/-!
Verification of the CLI currency converter (Go sources `main.go` and the
extended variant) against its natural-language specification.

The Go program is embedded shallowly:
* `float64` amounts and rates are abstracted as `Rat` — the program only
  multiplies them, so the algebraic structure of the computation is preserved;
* the `map[string]float64` rate table is an association list with `List.lookup`
  playing the role of the Go map index;
* `time.Duration` values (int64 nanoseconds) are `Int`, and Go's
  float-truncating `int(d.Hours())` / `int(d.Minutes())` conversions are the
  exact truncated divisions `Int.tdiv`; Go's `%` is `Int.tmod`
  (both truncate toward zero, as Go does);
* file and network I/O becomes explicit data: a file read is an
  `Option` (read error / content), a parse is an `Except` or `Option`,
  and `main`'s observable behaviour is a list of output events plus an
  exit code.
-/

namespace CurrencyConverter

/-- Embedding of Go's `strings.ToUpper`: map the character-level upper-casing
over the string.  (Go performs the full Unicode mapping; `Char.toUpper`
covers the ASCII range, which is all the program's currency codes and format
names use.) -/
def stringsToUpper (s : String) : String := ⟨s.data.map Char.toUpper⟩

/-- Embedding of Go's `strings.ToLower` (ASCII range, see `stringsToUpper`). -/
def stringsToLower (s : String) : String := ⟨s.data.map Char.toLower⟩

/-- Embedding of Go's `strings.TrimSpace`: drop whitespace from both ends. -/
def stringsTrimSpace (s : String) : String :=
  ⟨((s.data.dropWhile Char.isWhitespace).reverse.dropWhile
      Char.isWhitespace).reverse⟩

/-- Split a character list at every occurrence of the separator; always
returns at least one (possibly empty) piece, like Go's `strings.Split`. -/
def splitOnChar (sep : Char) : List Char → List (List Char)
  | [] => [[]]
  | c :: rest =>
      match splitOnChar sep rest with
      | [] => [[]]
      | h :: t => if c = sep then [] :: h :: t else (c :: h) :: t

/-- Embedding of `strings.Split(s, ",")` as used on the target-currency
argument. -/
def stringsSplitComma (s : String) : List String :=
  (splitOnChar ',' s.data).map fun l => ⟨l⟩

/-- Decoded response of the exchange-rate API (`ExchangeRateResponse` in
`main.go`): base code, date string, the `rates` map as an association list,
and the `time_last_updated` epoch timestamp. -/
structure ExchangeRateResponse where
  base : String
  date : String
  rates : List (String × Rat)
  time_last_updated : Int
deriving DecidableEq, Repr

/-- Embedding of `convertCurrency` (`main.go` lines 133-138 / part_000 lines
270-275): look the target code up in the rate map; on a hit return
`amount * rate`, on a miss return the Go error text
`fmt.Errorf("валюта %s не найдена", to)`.  The function is pure by
construction, exactly as in the source (no writes, no globals). -/
def convertCurrency (amount : Rat) (fromC toC : String)
    (rates : ExchangeRateResponse) : Except String Rat :=
  match rates.rates.lookup toC with
  | some rate => .ok (amount * rate)
  | none => .error ("валюта " ++ toC ++ " не найдена")

/-- Nanoseconds per hour, the divisor hidden in Go's `duration.Hours()`. -/
def nsPerHour : Int := 3600000000000

/-- Nanoseconds per minute, the divisor hidden in Go's `duration.Minutes()`. -/
def nsPerMinute : Int := 60000000000

/-- Whole-hour count of a duration: `int(duration.Hours())` in Go, i.e. the
division truncated toward zero. -/
def wholeHours (d : Int) : Int := d.tdiv nsPerHour

/-- Whole-minute remainder of a duration: `int(duration.Minutes()) % 60` in
Go; Go's `%` truncates toward zero, hence `Int.tmod`. -/
def wholeMinutes (d : Int) : Int := (d.tdiv nsPerMinute).tmod 60

/-- Embedding of `formatTimeAgo` (`main.go` lines 141-174 / part_000 lines
278-311) over a duration in nanoseconds.  The branch structure and the
produced strings follow the source line by line. -/
def formatTimeAgo (duration : Int) : String :=
  let hours := wholeHours duration
  let minutes := wholeMinutes duration
  if 24 < hours then
    let days := hours.tdiv 24
    if days = 1 then "1 день назад"
    else toString days ++ " дня/дней назад"
  else if 0 < hours then
    if hours = 1 then "1 час назад"
    else if hours < 5 then toString hours ++ " часа назад"
    else toString hours ++ " часов назад"
  else if 0 < minutes then
    if minutes = 1 then "1 минуту назад"
    else if minutes < 5 then toString minutes ++ " минуты назад"
    else toString minutes ++ " минут назад"
  else "только что"

/-- The `Config` struct of part_000: default source code, default target code,
output format. -/
structure Config where
  DefaultFrom : String
  DefaultTo : String
  OutputFormat : String
deriving DecidableEq, Repr

/-- The hardcoded defaults `{USD, RUB, text}` initialised at the top of
`loadConfig`. -/
def defaultConfig : Config :=
  { DefaultFrom := "USD", DefaultTo := "RUB", OutputFormat := "text" }

/-- Fields a well-formed `config.json` may set.  `json.Unmarshal` leaves a
field at its prior value when the key is absent, which `Option.getD` mirrors. -/
structure ConfigPatch where
  default_from : Option String := none
  default_to : Option String := none
  output_format : Option String := none
deriving DecidableEq, Repr

/-- Embedding of `loadConfig` (part_000 lines 61-78).  The argument is the
outcome of `os.ReadFile` + `json.Unmarshal`: `none` = read error (early
return of the defaults), `some none` = malformed JSON (the unmarshal error is
ignored and the struct keeps its defaults), `some (some p)` = parsed fields.
After a successful read the from/to fields are upper-cased and the format
lower-cased, exactly as in the source. -/
def loadConfig (file : Option (Option ConfigPatch)) : Config :=
  let cfg := defaultConfig
  match file with
  | none => cfg
  | some parsed =>
      let cfg :=
        match parsed with
        | none => cfg
        | some p =>
            { DefaultFrom := p.default_from.getD cfg.DefaultFrom
              DefaultTo := p.default_to.getD cfg.DefaultTo
              OutputFormat := p.output_format.getD cfg.OutputFormat }
      { DefaultFrom := stringsToUpper cfg.DefaultFrom
        DefaultTo := stringsToUpper cfg.DefaultTo
        OutputFormat := stringsToLower cfg.OutputFormat }

/-- The `ConversionRecord` struct of part_000 (timestamps as epoch `Int`). -/
structure ConversionRecord where
  Timestamp : Int
  FromCurrency : String
  ToCurrency : String
  Amount : Rat
  Result : Rat
  ExchangeRate : Rat
  RateUpdateTime : Int
deriving DecidableEq, Repr

/-- State of `history.json` as seen by a reader: `none` = `os.ReadFile`
failed, `some (.error e)` = the file was read but `json.Unmarshal` failed
with message `e`, `some (.ok l)` = a well-formed array of records. -/
abbrev HistoryFile := Option (Except String (List ConversionRecord))

/-- Embedding of `saveToHistory` (part_000 lines 390-418): build the record,
read the existing history treating a read error or a parse error as an empty
list (`json.Unmarshal` into a nil slice leaves it nil on error), append, and
rewrite the whole file.  A failed write — whether `json.MarshalIndent`
errors (the source then just returns) or `os.WriteFile` errors (the source
ignores it) — is silently dropped; the model represents the
successful-write outcome, the well-formed rewritten content, which is what
the history claims describe. -/
def saveToHistory (now : Int) (fromC toC : String) (amount result rate : Rat)
    (updateTime : Int) (file : HistoryFile) : HistoryFile :=
  let record : ConversionRecord :=
    { Timestamp := now, FromCurrency := fromC, ToCurrency := toC
      Amount := amount, Result := result, ExchangeRate := rate
      RateUpdateTime := updateTime }
  let history : List ConversionRecord :=
    match file with
    | none => []
    | some (.error _) => []
    | some (.ok h) => h
  some (.ok (history ++ [record]))

/-- Observable output and side-effect events of one program run. -/
inductive Event where
  | printHeader
  | loadingMsg
  | redMsg (msg : String)
  | yellowMsg (msg : String)
  | structuredError (msg : String) (asJson : Bool)
  | promptInput (prompt : String)
  | fetchRates (base : String)
  | historyAppend (record : ConversionRecord)
  | resultText (amount : Rat) (fromC : String) (result : Rat) (toC : String)
  | resultJSON (fromC toC : String) (amount result rate : Rat) (updateTime : Int)
  | resultCSV (fromC toC : String) (amount result rate : Rat)
  | historyHeader
  | historyEntry (record : ConversionRecord)
  | historyCount (n : Nat)
deriving DecidableEq, Repr

/-- Embedding of `showHistory` (part_000 lines 421-458) as the list of events
it prints: a red message when the file cannot be read, a red message carrying
the unmarshal error when it cannot be parsed, a yellow "empty" message for an
empty array, and otherwise the banner, the records from last to first, and
the total count. -/
def showHistoryEvents (file : HistoryFile) : List Event :=
  match file with
  | none => [.redMsg "❌ История конвертаций пуста или файл не найден"]
  | some (.error e) => [.redMsg ("❌ Ошибка чтения файла истории: " ++ e)]
  | some (.ok history) =>
      if history.length = 0 then [.yellowMsg "📝 История конвертаций пуста"]
      else .historyHeader :: (history.reverse.map Event.historyEntry
        ++ [.historyCount history.length])

/-- Embedding of the flag-stripping loop of `main` (part_000 lines 91-104).
The Go loop removes every `--json` / `--csv` element in place (with `i--` so
the next element is re-examined) and records which flags were seen; the
recursion processes each element exactly once, which is the same function.
Returns `(jsonOutput, csvOutput, remaining args)`. -/
def stripFlags : List String → Bool → Bool → Bool × Bool × List String
  | [], j, c => (j, c, [])
  | a :: rest, j, c =>
      if a = "--json" then stripFlags rest true c
      else if a = "--csv" then stripFlags rest j true
      else
        let r := stripFlags rest j c
        (r.1, r.2.1, a :: r.2.2)

/-- Embedding of `getInput` (part_000 lines 219-224) applied to the raw line
the user typed: trim whitespace, upper-case. -/
def getInput (raw : String) : String := stringsToUpper (stringsTrimSpace raw)

/-- Epoch second of 0000-01-01T00:00:00Z: the first instant Go's
`time.Time.MarshalJSON` accepts (it rejects years below 0). -/
def minMarshalEpoch : Int := -62167219200

/-- Epoch second of 10000-01-01T00:00:00Z: the first instant Go's
`time.Time.MarshalJSON` rejects at the top (it rejects years above 9999). -/
def maxMarshalEpoch : Int := 253402300800

/-- Whether `json.Marshal` of the `time.Time` built by `time.Unix(t, 0)`
succeeds: Go requires the year to lie in [0, 9999]. -/
def timeMarshalOK (t : Int) : Bool :=
  minMarshalEpoch ≤ t && t < maxMarshalEpoch

/-- The text of the error `json.MarshalIndent` returns when a `time.Time`
field has a year outside [0, 9999] (Go standard library wording). -/
def timeMarshalErr : String :=
  "json: error calling MarshalJSON for type time.Time: Time.MarshalJSON: year outside of range [0,9999]"

/-- Embedding of `outputJSON` (part_000 lines 340-359): marshal the output
struct and print it; when `json.MarshalIndent` fails — which happens exactly
when one of the two `time.Time` fields (`Timestamp = time.Now()`,
`RateUpdateTime = time.Unix(time_last_updated, 0)`) has a year outside
[0, 9999] — print the structured error `ошибка формирования JSON: %v` and
`os.Exit(1)`.  (Go's other marshal-failure cause, NaN/Inf float64 values,
has no counterpart under the `Rat` abstraction of float64.)  Returns the
printed events and whether the process exited. -/
def outputJSON (fromC toC : String) (amount result rate : Rat)
    (updateTime now : Int) : List Event × Bool :=
  if timeMarshalOK now && timeMarshalOK updateTime then
    ([Event.resultJSON fromC toC amount result rate updateTime], false)
  else
    ([Event.structuredError ("ошибка формирования JSON: " ++ timeMarshalErr)
        true], true)

/-- Embedding of the per-target loop of `main` (part_000 lines 179-205):
trim each comma-separated target, skip empties, convert; on a conversion
error print it (structured in json/csv mode, red text otherwise) and
`continue`; on success write the history record (part_000 line 196, with the
rate re-read from the map as `rates.Rates[toCurrency]`) and render the result
in the selected mode.  In json mode the rendering goes through `outputJSON`,
which calls `os.Exit(1)` when its marshal fails: the loop then stops and the
process exit code is 1; otherwise the loop runs to the end of `main`, exit
code 0.  Returns the emitted events and that exit code. -/
def processTargets (jsonOutput csvOutput : Bool) (amount : Rat) (fromC : String)
    (rates : ExchangeRateResponse) (updateTime now : Int) :
    List String → List Event × Nat
  | [] => ([], 0)
  | t :: rest =>
      let toCurrency := stringsTrimSpace t
      if toCurrency = "" then
        processTargets jsonOutput csvOutput amount fromC rates updateTime now rest
      else
        match convertCurrency amount fromC toCurrency rates with
        | .error e =>
            let r := processTargets jsonOutput csvOutput amount fromC rates
              updateTime now rest
            ((if jsonOutput || csvOutput then
               Event.structuredError ("ошибка конвертации: " ++ e) jsonOutput
             else
               Event.redMsg ("❌ Ошибка конвертации для " ++ toCurrency ++ ": " ++ e))
              :: r.1, r.2)
        | .ok result =>
            let rate := (rates.rates.lookup toCurrency).getD 0
            let record : ConversionRecord :=
              { Timestamp := now, FromCurrency := fromC, ToCurrency := toCurrency
                Amount := amount, Result := result, ExchangeRate := rate
                RateUpdateTime := updateTime }
            if jsonOutput then
              let oj := outputJSON fromC toCurrency amount result rate
                updateTime now
              if oj.2 then
                (Event.historyAppend record :: oj.1, 1)
              else
                let r := processTargets jsonOutput csvOutput amount fromC rates
                  updateTime now rest
                (Event.historyAppend record :: (oj.1 ++ r.1), r.2)
            else
              let r := processTargets jsonOutput csvOutput amount fromC rates
                updateTime now rest
              (Event.historyAppend record
                :: (if csvOutput then
                      Event.resultCSV fromC toCurrency amount result rate
                    else
                      Event.resultText amount fromC result toCurrency)
                :: r.1, r.2)

/-- Inputs of one program invocation: the argument vector, the contents of
`config.json` and `history.json` (as read/parse outcomes), the behaviour of
`strconv.ParseFloat` on amount strings, the outcome of the single
`getExchangeRates` HTTP call per base currency, the three raw interactive
input lines, and the wall clock. -/
structure MainInput where
  argv0 : String
  args : List String
  configFile : Option (Option ConfigPatch)
  historyFile : HistoryFile
  parseAmount : String → Option Rat
  fetch : String → Except String ExchangeRateResponse
  inputFrom : String
  inputTo : String
  inputAmount : String
  now : Int

/-- The tail of `main` after an amount has been parsed (part_000 lines
159-205): split the target list on commas, print the loading message in text
mode, fetch the rates once (exit 1 on failure, with the error rendered per
output mode), then run the per-target loop, whose exit code (0, or 1 after a
fatal JSON-encode failure inside `outputJSON`) is the process exit code. -/
def runConversion (inp : MainInput) (jsonOutput csvOutput : Bool)
    (pre : List Event) (fromCurrency toCurrencyRaw : String) (amount : Rat) :
    List Event × Nat :=
  let toCurrencies := stringsSplitComma toCurrencyRaw
  let loadEvents : List Event :=
    if !jsonOutput && !csvOutput then [.loadingMsg] else []
  let pre := pre ++ loadEvents ++ [Event.fetchRates fromCurrency]
  match inp.fetch fromCurrency with
  | .error e =>
      (pre ++ [if jsonOutput || csvOutput then
          Event.structuredError ("ошибка при получении курсов: " ++ e) jsonOutput
        else
          Event.redMsg ("❌ Ошибка при получении курсов: " ++ e)], 1)
  | .ok rates =>
      let r := processTargets jsonOutput csvOutput amount fromCurrency rates
        rates.time_last_updated inp.now toCurrencies
      (pre ++ r.1, r.2)

/-- Embedding of `main` (part_000 lines 80-206) as a pure function from the
invocation inputs to the emitted events and the process exit code.
`--history` as the first argument short-circuits to `showHistory` (exit 0);
otherwise the config is loaded, `--json`/`--csv` flags are stripped, the
config's output format applies when no flag was given, the header is printed
in text mode, and the stripped argument count selects the three-argument
path, the interactive path, or the usage error (exit 1). -/
def runMain (inp : MainInput) : List Event × Nat :=
  if inp.args.head? = some "--history" then
    (showHistoryEvents inp.historyFile, 0)
  else
    let cfg := loadConfig inp.configFile
    let s := stripFlags inp.args false false
    let flags : Bool × Bool :=
      if !s.1 && !s.2.1 then
        if cfg.OutputFormat = "json" then (true, false)
        else if cfg.OutputFormat = "csv" then (false, true)
        else (false, false)
      else (s.1, s.2.1)
    let jsonOutput := flags.1
    let csvOutput := flags.2
    let headerEvents : List Event :=
      if !jsonOutput && !csvOutput then [.printHeader] else []
    match s.2.2 with
    | [a0, a1, a2] =>
        let fromCurrency := stringsToUpper a0
        let toCurrencyRaw := stringsToUpper a1
        match inp.parseAmount a2 with
        | none =>
            (headerEvents ++
              [if jsonOutput || csvOutput then
                 Event.structuredError "неверная сумма" jsonOutput
               else Event.redMsg "❌ Ошибка: неверная сумма"], 1)
        | some amount =>
            runConversion inp jsonOutput csvOutput headerEvents
              fromCurrency toCurrencyRaw amount
    | [] =>
        let fromInput := getInput inp.inputFrom
        let fromCurrency := if fromInput = "" then cfg.DefaultFrom else fromInput
        let toInput := getInput inp.inputTo
        let toCurrencyRaw := if toInput = "" then cfg.DefaultTo else toInput
        let promptEvents : List Event :=
          [.promptInput ("Введите исходную валюту (по умолчанию "
              ++ cfg.DefaultFrom ++ "): "),
           .promptInput ("Введите целевую валюту (по умолчанию "
              ++ cfg.DefaultTo ++ "): "),
           .promptInput "Введите сумму для конвертации: "]
        match inp.parseAmount inp.inputAmount with
        | none =>
            (headerEvents ++ promptEvents
              ++ [Event.redMsg "❌ Ошибка: неверная сумма"], 1)
        | some amount =>
            runConversion inp jsonOutput csvOutput (headerEvents ++ promptEvents)
              fromCurrency toCurrencyRaw amount
    | _ =>
        (headerEvents ++
          (if jsonOutput || csvOutput then
             [Event.structuredError "неверное количество аргументов" jsonOutput]
           else
             [Event.redMsg ("❌ Использование: " ++ inp.argv0
                ++ " [--json|--csv] <from> <to1[,to2,...]> <amount>"),
              Event.redMsg ("   или: " ++ inp.argv0 ++ " --history")]), 1)

/-- The positional arguments remaining after `--json`/`--csv` are stripped. -/
def strippedArgs (args : List String) : List String :=
  (stripFlags args false false).2.2

/-- There are neither three nor zero positional arguments after stripping
(the condition of `main`'s usage-error branch). -/
def wrongArgCount (inp : MainInput) : Bool :=
  let n := (strippedArgs inp.args).length
  !(n = 3 || n = 0)

/-- The amount string reaching `strconv.ParseFloat` does not parse: the third
positional argument, or the interactive amount line. -/
def badAmount (inp : MainInput) : Bool :=
  match strippedArgs inp.args with
  | [_, _, a2] => (inp.parseAmount a2).isNone
  | [] => (inp.parseAmount inp.inputAmount).isNone
  | _ => false

/-- The base currency `main` would pass to `getExchangeRates`. -/
def fetchBase (inp : MainInput) : String :=
  match strippedArgs inp.args with
  | [a0, _, _] => stringsToUpper a0
  | [] =>
      let f := getInput inp.inputFrom
      if f = "" then (loadConfig inp.configFile).DefaultFrom else f
  | _ => ""

/-- The single `getExchangeRates` call fails for this invocation's base. -/
def fetchFailed (inp : MainInput) : Bool :=
  match inp.fetch (fetchBase inp) with
  | .error _ => true
  | .ok _ => false

/-- The presenter selection of `main`: explicit flags first, then the
config's output format, else plain text; returns `(jsonOutput, csvOutput)`. -/
def presenterFlags (inp : MainInput) : Bool × Bool :=
  let s := stripFlags inp.args false false
  if !s.1 && !s.2.1 then
    if (loadConfig inp.configFile).OutputFormat = "json" then (true, false)
    else if (loadConfig inp.configFile).OutputFormat = "csv" then (false, true)
    else (false, false)
  else (s.1, s.2.1)

/-- Some target of the list is nonempty after trimming and present in the
snapshot, i.e. the loop reaches the success branch (and hence the renderer)
at least once. -/
def hasConvertibleTarget (rates : ExchangeRateResponse)
    (targets : List String) : Bool :=
  targets.any fun t =>
    !(stringsTrimSpace t == "") && (rates.rates.lookup (stringsTrimSpace t)).isSome

/-- The comma-separated target list `main` would iterate over. -/
def mainTargets (inp : MainInput) : List String :=
  match strippedArgs inp.args with
  | [_, a1, _] => stringsSplitComma (stringsToUpper a1)
  | [] =>
      let t := getInput inp.inputTo
      stringsSplitComma (if t = "" then (loadConfig inp.configFile).DefaultTo else t)
  | _ => []

/-- The run hits `outputJSON`'s fatal marshal failure: the JSON presenter is
selected, one of the two `time.Time` fields cannot be marshalled (year
outside [0, 9999]), and some target actually converts, reaching the
renderer. -/
def jsonEncodeFailed (inp : MainInput) : Bool :=
  match inp.fetch (fetchBase inp) with
  | .error _ => false
  | .ok rates =>
      (presenterFlags inp).1 &&
      !(timeMarshalOK inp.now && timeMarshalOK rates.time_last_updated) &&
      hasConvertibleTarget rates (mainTargets inp)

/-- Iterated `saveToHistory`: append each record of the list in turn, exactly
as the per-target loop of `main` does across one or several invocations. -/
def saveMany (file : HistoryFile) : List ConversionRecord → HistoryFile
  | [] => file
  | r :: rs =>
      saveMany (saveToHistory r.Timestamp r.FromCurrency r.ToCurrency
        r.Amount r.Result r.ExchangeRate r.RateUpdateTime file) rs

/-- Concrete invocation used to witness C4's JSON-encode exit: json mode,
a convertible target, and a rate snapshot whose `time_last_updated` lies in
year 33658, outside Go's marshalable range. -/
def witnessRunC4 : MainInput :=
  { argv0 := "prog"
    args := ["--json", "USD", "RUB", "100"]
    configFile := none
    historyFile := none
    parseAmount := fun s => if s = "100" then some 100 else none
    fetch := fun _ => .ok
      { base := "USD"
        date := "d"
        rates := [("RUB", 90)]
        time_last_updated := 1000000000000 }
    inputFrom := ""
    inputTo := ""
    inputAmount := ""
    now := 7 }

/-- Concrete invocation used to witness C9: `USD RUB 100` against a snapshot
holding rate 90 for RUB. -/
def witnessRunC9 : MainInput :=
  { argv0 := "prog"
    args := ["USD", "RUB", "100"]
    configFile := none
    historyFile := none
    parseAmount := fun s => if s = "100" then some 100 else none
    fetch := fun _ => .ok
      { base := "USD"
        date := "d"
        rates := [("RUB", 90)]
        time_last_updated := 5 }
    inputFrom := ""
    inputTo := ""
    inputAmount := ""
    now := 7 }

/-! Helper lemmas on truncated division, shared by the bucket theorems. -/

theorem tdiv_nonpos_of_nonpos {a b : Int} (ha : a ≤ 0) (hb : 0 ≤ b) :
    a.tdiv b ≤ 0 := by
  have h1 : 0 ≤ (-a).tdiv b := Int.tdiv_nonneg (by omega) hb
  rw [Int.neg_tdiv] at h1
  omega

theorem tmod_nonpos_of_nonpos {a : Int} (b : Int) (ha : a ≤ 0) :
    a.tmod b ≤ 0 := by
  have h1 : 0 ≤ (-a).tmod b := Int.tmod_nonneg b (by omega)
  have h2 : (-a).tmod b = -(a.tmod b) := by
    rw [Int.tmod_def, Int.tmod_def, Int.neg_tdiv]
    ring
  omega

/-- C1: for every amount and every target currency code present in the rate
snapshot's rates mapping, `convertCurrency` returns the amount multiplied by
the rate stored under that code and no error.  Absence of side effects is
inherent: the embedded function is pure, as is the Go source (it only reads
its arguments). -/
theorem claimC1 (amount : Rat) (fromC toC : String)
    (rates : ExchangeRateResponse) (rate : Rat)
    (h : rates.rates.lookup toC = some rate) :
    convertCurrency amount fromC toC rates = .ok (amount * rate) := by
  simp [convertCurrency, h]

/-- Witness for C1 at `100 USD → RUB` with rate `90`. -/
theorem claimC1_witness :
    (ExchangeRateResponse.mk "USD" "d" [("RUB", (90 : Rat))] 0).rates.lookup
        "RUB" = some 90 ∧
    convertCurrency 100 "USD" "RUB"
        (ExchangeRateResponse.mk "USD" "d" [("RUB", (90 : Rat))] 0) =
      .ok (100 * 90) :=
  ⟨by decide, claimC1 100 "USD" "RUB" _ 90 (by decide)⟩

/-- C2: for every amount and every target code absent from the rates mapping,
`convertCurrency` returns an error whose message names the missing code
(Go's `fmt.Errorf("валюта %s не найдена", to)`), and never a successful
result. -/
theorem claimC2 (amount : Rat) (fromC toC : String)
    (rates : ExchangeRateResponse)
    (h : rates.rates.lookup toC = none) :
    convertCurrency amount fromC toC rates =
        .error ("валюта " ++ toC ++ " не найдена") ∧
      ∀ x : Rat, convertCurrency amount fromC toC rates ≠ .ok x := by
  simp [convertCurrency, h]

/-- Witness for C2 at target `XXX`, absent from the snapshot. -/
theorem claimC2_witness :
    (ExchangeRateResponse.mk "USD" "d" [("RUB", (90 : Rat))] 0).rates.lookup
        "XXX" = none ∧
    (convertCurrency 100 "USD" "XXX"
          (ExchangeRateResponse.mk "USD" "d" [("RUB", (90 : Rat))] 0) =
        .error ("валюта " ++ "XXX" ++ " не найдена") ∧
      ∀ x : Rat, convertCurrency 100 "USD" "XXX"
          (ExchangeRateResponse.mk "USD" "d" [("RUB", (90 : Rat))] 0) ≠
        .ok x) :=
  ⟨by decide, claimC2 100 "USD" "XXX" _ (by decide)⟩

/-- C7: `loadConfig` returns the defaults `{USD, RUB, text}` whenever the
config file is missing/unreadable (`none`) or malformed (`some none`), and in
every case the returned config has upper-cased from/to fields and a
lower-cased format field (witnessed by pre-images under the casing maps). -/
theorem claimC7 :
    (loadConfig none = defaultConfig ∧ loadConfig (some none) = defaultConfig) ∧
    ∀ file, ∃ f t fm, loadConfig file =
      { DefaultFrom := stringsToUpper f, DefaultTo := stringsToUpper t
        OutputFormat := stringsToLower fm } := by
  refine ⟨⟨rfl, by decide⟩, ?_⟩
  intro file
  match file with
  | none => exact ⟨"USD", "RUB", "text", by decide⟩
  | some none => exact ⟨"USD", "RUB", "text", by decide⟩
  | some (some p) =>
      exact ⟨p.default_from.getD "USD", p.default_to.getD "RUB",
        p.output_format.getD "text", rfl⟩

/-- C10: for every negative duration (rate timestamp in the future of the
clock), `formatTimeAgo` returns the "just now" string — in particular no
string with a negative day, hour or minute count is ever produced: the
truncated hour count and the truncated minute remainder are both
nonpositive, so the day, hour and minute branches are all skipped. -/
theorem claimC10 (d : Int) (hd : d < 0) : formatTimeAgo d = "только что" := by
  have hh : wholeHours d ≤ 0 := tdiv_nonpos_of_nonpos (by omega) (by decide)
  have hm : wholeMinutes d ≤ 0 :=
    tmod_nonpos_of_nonpos 60 (tdiv_nonpos_of_nonpos (by omega) (by decide))
  simp only [formatTimeAgo]
  rw [if_neg (by omega), if_neg (by omega), if_neg (by omega)]

/-- Witness for C10 at one nanosecond in the future. -/
theorem claimC10_witness :
    (-1 : Int) < 0 ∧ formatTimeAgo (-1) = "только что" :=
  ⟨by decide, claimC10 (-1) (by decide)⟩

/-- C3: `formatTimeAgo` selects its bucket by the fixed thresholds of the
source: whole-hour count above 24 gives the day bucket (singular for a day
count of exactly 1), whole hours 1 to 24 give the hour bucket (singular for
1, one plural form for 2-4, another for 5 and up), below one hour a
whole-minute remainder of 1 to 59 gives the analogous minute bucket, and
below one whole minute the "just now" string; with the spec's anchors
0 min ↦ just now, 1 min ↦ singular minute, 90 min ↦ hour bucket,
25 h ↦ day bucket. -/
theorem claimC3 (d : Int) :
    (24 < wholeHours d →
      (((wholeHours d).tdiv 24 = 1 → formatTimeAgo d = "1 день назад") ∧
       (1 < (wholeHours d).tdiv 24 →
         formatTimeAgo d = toString ((wholeHours d).tdiv 24)
           ++ " дня/дней назад"))) ∧
    (0 < wholeHours d → wholeHours d ≤ 24 →
      ((wholeHours d = 1 → formatTimeAgo d = "1 час назад") ∧
       (2 ≤ wholeHours d → wholeHours d ≤ 4 →
         formatTimeAgo d = toString (wholeHours d) ++ " часа назад") ∧
       (5 ≤ wholeHours d →
         formatTimeAgo d = toString (wholeHours d) ++ " часов назад"))) ∧
    (wholeHours d = 0 → 0 < wholeMinutes d →
      ((wholeMinutes d = 1 → formatTimeAgo d = "1 минуту назад") ∧
       (2 ≤ wholeMinutes d → wholeMinutes d ≤ 4 →
         formatTimeAgo d = toString (wholeMinutes d) ++ " минуты назад") ∧
       (5 ≤ wholeMinutes d →
         formatTimeAgo d = toString (wholeMinutes d) ++ " минут назад"))) ∧
    (wholeHours d = 0 → wholeMinutes d = 0 →
      formatTimeAgo d = "только что") ∧
    (formatTimeAgo 0 = "только что" ∧
     formatTimeAgo nsPerMinute = "1 минуту назад" ∧
     formatTimeAgo (90 * nsPerMinute) = "1 час назад" ∧
     formatTimeAgo (25 * nsPerHour) = "1 день назад") := by
  refine ⟨?_, ?_, ?_, ?_, by decide, by decide, by decide, by decide⟩
  · intro h24
    constructor
    · intro h1
      simp only [formatTimeAgo]
      rw [if_pos h24, if_pos h1]
    · intro h1
      simp only [formatTimeAgo]
      rw [if_pos h24, if_neg (by omega)]
  · intro h0 hle
    refine ⟨?_, ?_, ?_⟩
    · intro h1
      simp only [formatTimeAgo]
      rw [if_neg (by omega), if_pos h0, if_pos h1]
    · intro h2 h4
      simp only [formatTimeAgo]
      rw [if_neg (by omega), if_pos h0, if_neg (by omega), if_pos (by omega)]
    · intro h5
      simp only [formatTimeAgo]
      rw [if_neg (by omega), if_pos h0, if_neg (by omega), if_neg (by omega)]
  · intro hh hm
    refine ⟨?_, ?_, ?_⟩
    · intro h1
      simp only [formatTimeAgo]
      rw [if_neg (by omega), if_neg (by omega), if_pos hm, if_pos h1]
    · intro h2 h4
      simp only [formatTimeAgo]
      rw [if_neg (by omega), if_neg (by omega), if_pos hm, if_neg (by omega),
        if_pos (by omega)]
    · intro h5
      simp only [formatTimeAgo]
      rw [if_neg (by omega), if_neg (by omega), if_pos hm, if_neg (by omega),
        if_neg (by omega)]
  · intro hh hm
    simp only [formatTimeAgo]
    rw [if_neg (by omega), if_neg (by omega), if_neg (by omega)]

/-- Witness for C3 at a 90-minute duration: the hour bucket, singular form. -/
theorem claimC3_witness :
    0 < wholeHours (90 * nsPerMinute) ∧ wholeHours (90 * nsPerMinute) ≤ 24 ∧
    wholeHours (90 * nsPerMinute) = 1 ∧
    formatTimeAgo (90 * nsPerMinute) = "1 час назад" :=
  ⟨by decide, by decide, by decide,
    ((claimC3 (90 * nsPerMinute)).2.1 (by decide) (by decide)).1 (by decide)⟩

/-- Appending one record to a well-formed history extends the array by one. -/
theorem saveToHistory_ok (now : Int) (f t : String) (a r rt : Rat) (ut : Int)
    (h : List ConversionRecord) :
    saveToHistory now f t a r rt ut (some (.ok h)) =
      some (.ok (h ++ [⟨now, f, t, a, r, rt, ut⟩])) := rfl

/-- Iterated append onto a well-formed history concatenates in order. -/
theorem saveMany_ok (new : List ConversionRecord) :
    ∀ prior, saveMany (some (.ok prior)) new = some (.ok (prior ++ new)) := by
  induction new with
  | nil => intro prior; simp [saveMany]
  | cons r rs ih =>
      intro prior
      have hstep : saveToHistory r.Timestamp r.FromCurrency r.ToCurrency
          r.Amount r.Result r.ExchangeRate r.RateUpdateTime (some (.ok prior)) =
          some (.ok (prior ++ [r])) := rfl
      simp only [saveMany, hstep, ih, List.append_assoc, List.singleton_append]

/-- C5: appending N records via `saveToHistory` onto a well-formed history
yields exactly the prior records followed by the new ones in insertion
order; `showHistory` on a nonempty history prints the records in reverse
insertion order followed by the total count; a read or parse failure during
an append is treated as an empty existing history. -/
theorem claimC5 :
    (∀ (prior new : List ConversionRecord),
      saveMany (some (.ok prior)) new = some (.ok (prior ++ new))) ∧
    (∀ h : List ConversionRecord, h ≠ [] →
      showHistoryEvents (some (.ok h)) =
        Event.historyHeader :: (h.reverse.map Event.historyEntry
          ++ [Event.historyCount h.length])) ∧
    (∀ (file : HistoryFile) (now : Int) (f t : String) (a r rt : Rat)
        (ut : Int), (file = none ∨ ∃ e, file = some (.error e)) →
      saveToHistory now f t a r rt ut file =
        some (.ok [⟨now, f, t, a, r, rt, ut⟩])) := by
  refine ⟨fun prior new => saveMany_ok new prior, ?_, ?_⟩
  · intro h hne
    simp only [showHistoryEvents]
    rw [if_neg (by simpa using hne)]
  · rintro file now f t a r rt ut (rfl | ⟨e, rfl⟩) <;> rfl

/-- Witness for C5: one prior record, two appended, read back in order and
listed in reverse; a failed read treated as empty. -/
theorem claimC5_witness :
    (saveMany (some (.ok [⟨1, "USD", "RUB", 2, 180, 90, 0⟩]))
        [⟨2, "USD", "EUR", 3, 3, 1, 0⟩, ⟨3, "USD", "GBP", 4, 2, 2, 0⟩] =
      some (.ok [⟨1, "USD", "RUB", 2, 180, 90, 0⟩, ⟨2, "USD", "EUR", 3, 3, 1, 0⟩,
        ⟨3, "USD", "GBP", 4, 2, 2, 0⟩])) ∧
    (showHistoryEvents (some (.ok [⟨1, "USD", "RUB", 2, 180, 90, 0⟩,
        ⟨2, "USD", "EUR", 3, 3, 1, 0⟩])) =
      Event.historyHeader ::
        (([⟨1, "USD", "RUB", 2, 180, 90, 0⟩,
           ⟨2, "USD", "EUR", 3, 3, 1, 0⟩] : List ConversionRecord).reverse.map
            Event.historyEntry
          ++ [Event.historyCount ([⟨1, "USD", "RUB", 2, 180, 90, 0⟩,
                ⟨2, "USD", "EUR", 3, 3, 1, 0⟩] : List ConversionRecord).length])) ∧
    (saveToHistory 9 "USD" "RUB" 1 90 90 0 none = some (.ok [⟨9, "USD", "RUB", 1, 90, 90, 0⟩])) := by
  refine ⟨?_, ?_, ?_⟩
  · exact claimC5.1 [⟨1, "USD", "RUB", 2, 180, 90, 0⟩]
      [⟨2, "USD", "EUR", 3, 3, 1, 0⟩, ⟨3, "USD", "GBP", 4, 2, 2, 0⟩]
  · exact claimC5.2.1 [⟨1, "USD", "RUB", 2, 180, 90, 0⟩,
      ⟨2, "USD", "EUR", 3, 3, 1, 0⟩] (by decide)
  · exact claimC5.2.2 none 9 "USD" "RUB" 1 90 90 0 (Or.inl rfl)

/-- C6 fails as stated: on a malformed history file, `showHistory` prints a
red error line that names the parse failure — the error is surfaced to the
user, not silently absorbed. -/
theorem claimC6_counterexample :
    showHistoryEvents (some (.error "unexpected end of JSON input")) =
      [Event.redMsg
        "❌ Ошибка чтения файла истории: unexpected end of JSON input"] := by
  decide

/-- C6 (amended): config read/parse errors and history read/parse errors
during an append are silently absorbed — `loadConfig` falls back to the
defaults and `saveToHistory` to an empty record list, surfacing nothing;
`showHistory`, by contrast, reports a missing/unreadable history file and a
malformed history file to the user with a red error message (though it still
returns normally rather than failing). -/
theorem claimC6 :
    (∀ file, (file = none ∨ file = some none) →
      loadConfig file = defaultConfig) ∧
    (∀ (file : HistoryFile) (now : Int) (f t : String) (a r rt : Rat)
        (ut : Int), (file = none ∨ ∃ e, file = some (.error e)) →
      saveToHistory now f t a r rt ut file =
        some (.ok [⟨now, f, t, a, r, rt, ut⟩])) ∧
    (showHistoryEvents none =
      [Event.redMsg "❌ История конвертаций пуста или файл не найден"]) ∧
    (∀ e, showHistoryEvents (some (.error e)) =
      [Event.redMsg ("❌ Ошибка чтения файла истории: " ++ e)]) := by
  refine ⟨?_, ?_, rfl, fun e => rfl⟩
  · rintro file (rfl | rfl)
    · rfl
    · decide
  · rintro file now f t a r rt ut (rfl | ⟨e, rfl⟩) <;> rfl

/-- Witness for C6 at a missing config file and an unreadable history file. -/
theorem claimC6_witness :
    loadConfig none = defaultConfig ∧
    saveToHistory 9 "USD" "EUR" 1 1 1 0 none =
      some (.ok [⟨9, "USD", "EUR", 1, 1, 1, 0⟩]) :=
  ⟨claimC6.1 none (Or.inl rfl),
   claimC6.2.1 none 9 "USD" "EUR" 1 1 1 0 (Or.inl rfl)⟩

/-- The exit code of the conversion tail: 1 on a rate-fetch failure,
otherwise whatever the per-target loop produces (0, or 1 after a fatal
JSON-encode failure in `outputJSON`). -/
theorem runConversion_exit (inp : MainInput) (j c : Bool) (pre : List Event)
    (fromC toRaw : String) (amount : Rat) :
    (runConversion inp j c pre fromC toRaw amount).2 =
      match inp.fetch fromC with
      | .error _ => 1
      | .ok rates =>
          (processTargets j c amount fromC rates rates.time_last_updated
            inp.now (stringsSplitComma toRaw)).2 := by
  unfold runConversion
  cases hf : inp.fetch fromC <;> simp [hf]

/-- The per-target loop exits 1 exactly when the JSON presenter is on, the
two `time.Time` fields cannot be marshalled, and some target reaches the
renderer (nonempty after trimming and present in the snapshot); otherwise
it runs to completion with exit 0. -/
theorem processTargets_exit (j c : Bool) (amount : Rat) (fromC : String)
    (rates : ExchangeRateResponse) (ut now : Int) :
    ∀ targets : List String,
      (processTargets j c amount fromC rates ut now targets).2 =
        if j && !(timeMarshalOK now && timeMarshalOK ut) &&
            hasConvertibleTarget rates targets then 1 else 0 := by
  intro targets
  induction targets with
  | nil => simp [processTargets, hasConvertibleTarget]
  | cons t rest ih =>
      have hcons : (hasConvertibleTarget rates (t :: rest) : Bool) =
          ((!(stringsTrimSpace t == "") &&
            (rates.rates.lookup (stringsTrimSpace t)).isSome) ||
           hasConvertibleTarget rates rest) := by
        simp [hasConvertibleTarget]
      simp only [processTargets]
      by_cases he : stringsTrimSpace t = ""
      · rw [if_pos he]
        rw [ih, hcons, he]
        simp
      · rw [if_neg he]
        cases hconv : convertCurrency amount fromC (stringsTrimSpace t) rates with
        | error e =>
            have hlook : rates.rates.lookup (stringsTrimSpace t) = none := by
              unfold convertCurrency at hconv
              cases hl : rates.rates.lookup (stringsTrimSpace t) with
              | none => rfl
              | some r => rw [hl] at hconv; cases hconv
            simp only []
            rw [ih, hcons, hlook]
            simp
        | ok result =>
            have hlook : (rates.rates.lookup (stringsTrimSpace t)).isSome = true := by
              unfold convertCurrency at hconv
              cases hl : rates.rates.lookup (stringsTrimSpace t) with
              | none => rw [hl] at hconv; cases hconv
              | some r => rfl
            by_cases hj : j = true
            · subst hj
              by_cases hm : (timeMarshalOK now && timeMarshalOK ut) = true
              · simp only [outputJSON, hm, if_true]
                rw [ih]
                simp [hm]
              · simp only [outputJSON, hm, if_false]
                simp only [Bool.not_eq_true] at hm
                rw [hcons]
                simp [he, hlook, hm]
            · simp only [Bool.not_eq_true] at hj
              subst hj
              rw [ih]
              simp

/-- C4: a missing-currency error for one target of a multi-target list is
reported (structured in json/csv mode, a red line in text mode) and the loop
continues with the remaining targets, with the same exit code as the rest of
the list; and the exit code is 1 exactly on a wrong stripped-argument count,
an unparsable amount, a rate-fetch failure, or a fatal JSON-encode failure
(`outputJSON`'s `os.Exit(1)` when a `time.Time` field is outside Go's
marshalable year range and a successful target reaches it in json mode) —
never because of a per-target missing-currency skip alone. -/
theorem claimC4 :
    (∀ (j c : Bool) (amount : Rat) (fromC : String)
        (rates : ExchangeRateResponse) (ut now : Int) (t : String)
        (rest : List String),
      rates.rates.lookup (stringsTrimSpace t) = none →
      stringsTrimSpace t ≠ "" →
      processTargets j c amount fromC rates ut now (t :: rest) =
        ((if j || c then
           Event.structuredError ("ошибка конвертации: "
             ++ ("валюта " ++ stringsTrimSpace t ++ " не найдена")) j
         else
           Event.redMsg ("❌ Ошибка конвертации для " ++ stringsTrimSpace t
             ++ ": " ++ ("валюта " ++ stringsTrimSpace t ++ " не найдена")))
          :: (processTargets j c amount fromC rates ut now rest).1,
         (processTargets j c amount fromC rates ut now rest).2)) ∧
    (∀ inp : MainInput, (runMain inp).2 =
        if inp.args.head? = some "--history" then 0
        else if wrongArgCount inp || badAmount inp || fetchFailed inp ||
            jsonEncodeFailed inp then 1
        else 0) := by
  constructor
  · intro j c amount fromC rates ut now t rest hmiss hne
    simp only [processTargets]
    rw [if_neg hne]
    simp [convertCurrency, hmiss]
  · intro inp
    by_cases hh : inp.args.head? = some "--history"
    · simp [runMain, hh]
    · simp only [runMain, if_neg hh]
      unfold wrongArgCount badAmount fetchFailed jsonEncodeFailed
        presenterFlags mainTargets fetchBase strippedArgs
      cases hargs : (stripFlags inp.args false false).2.2 with
      | nil =>
          cases hp : inp.parseAmount inp.inputAmount with
          | none => simp [hp]
          | some amt =>
              simp only [hp, runConversion_exit]
              cases hf : inp.fetch (if getInput inp.inputFrom = "" then (loadConfig inp.configFile).DefaultFrom else getInput inp.inputFrom) with
              | error e => simp [hp, hf]
              | ok rates => simp [hp, hf, processTargets_exit]
      | cons a0 t0 =>
          cases t0 with
          | nil => simp
          | cons a1 t1 =>
              cases t1 with
              | nil => simp
              | cons a2 t2 =>
                  cases t2 with
                  | nil =>
                      cases hp : inp.parseAmount a2 with
                      | none => simp [hp]
                      | some amt =>
                          simp only [hp, runConversion_exit]
                          cases hf : inp.fetch (stringsToUpper a0) with
                          | error e => simp [hp, hf]
                          | ok rates =>
                              simp [hp, hf, processTargets_exit]
                  | cons a3 t3 => simp

/-- Witness for C4: target `XXX` is absent, its error is logged and the loop
proceeds to the remaining target with the exit code of the rest; and a run
in json mode whose rate timestamp is outside Go's marshalable year range is
a fatal JSON-encode failure, exiting 1 with none of the other causes. -/
theorem claimC4_witness :
    (processTargets false false 100 "USD"
        (ExchangeRateResponse.mk "USD" "d" [("EUR", (9 : Rat)/10)] 5) 5 7
        ["XXX", "EUR"] =
      (Event.redMsg ("❌ Ошибка конвертации для " ++ stringsTrimSpace "XXX"
          ++ ": " ++ ("валюта " ++ stringsTrimSpace "XXX" ++ " не найдена"))
        :: (processTargets false false 100 "USD"
          (ExchangeRateResponse.mk "USD" "d" [("EUR", (9 : Rat)/10)] 5) 5 7
          ["EUR"]).1,
       (processTargets false false 100 "USD"
          (ExchangeRateResponse.mk "USD" "d" [("EUR", (9 : Rat)/10)] 5) 5 7
          ["EUR"]).2)) ∧
    (jsonEncodeFailed witnessRunC4 = true ∧
     wrongArgCount witnessRunC4 = false ∧
     badAmount witnessRunC4 = false ∧
     fetchFailed witnessRunC4 = false ∧
     (runMain witnessRunC4).2 = 1) := by
  constructor
  · have h := claimC4.1 false false 100 "USD"
      (ExchangeRateResponse.mk "USD" "d" [("EUR", (9 : Rat)/10)] 5) 5 7
      "XXX" ["EUR"] (by decide) (by decide)
    simpa using h
  · refine ⟨by decide, by decide, by decide, by decide, ?_⟩
    have h := claimC4.2 witnessRunC4
    rw [h]
    decide


/-- `showHistory` never writes to the history: its event list contains no
append. -/
theorem historyAppend_not_mem_showHistory (file : HistoryFile)
    (rec : ConversionRecord) :
    Event.historyAppend rec ∉ showHistoryEvents file := by
  match file with
  | none => simp [showHistoryEvents]
  | some (.error e) => simp [showHistoryEvents]
  | some (.ok h) =>
      simp only [showHistoryEvents]
      split
      · simp
      · intro hmem
        rcases List.mem_cons.mp hmem with h1 | h1
        · cases h1
        · rcases List.mem_append.mp h1 with h2 | h2
          · rcases List.mem_map.mp h2 with ⟨r, _, hr⟩
            cases hr
          · simp at h2

/-- Every record appended by the per-target loop carries the rate found in
the snapshot for its target and the product of the amount with that rate. -/
theorem processTargets_append_sound (j c : Bool) (amount : Rat)
    (fromC : String) (rates : ExchangeRateResponse) (ut now : Int) :
    ∀ (targets : List String) (rec : ConversionRecord),
      Event.historyAppend rec ∈
          (processTargets j c amount fromC rates ut now targets).1 →
      rates.rates.lookup rec.ToCurrency = some rec.ExchangeRate ∧
      rec.Result = rec.Amount * rec.ExchangeRate := by
  intro targets
  induction targets with
  | nil => intro rec h; simp [processTargets] at h
  | cons t rest ih =>
      intro rec h
      simp only [processTargets] at h
      by_cases he : stringsTrimSpace t = ""
      · rw [if_pos he] at h
        exact ih rec h
      · rw [if_neg he] at h
        cases hconv : convertCurrency amount fromC (stringsTrimSpace t) rates with
        | error e =>
            rw [hconv] at h
            rcases List.mem_cons.mp h with h1 | h1
            · exfalso
              revert h1
              split <;> intro h1 <;> cases h1
            · exact ih rec h1
        | ok result =>
            rw [hconv] at h
            obtain ⟨r, hl, hr⟩ : ∃ r,
                rates.rates.lookup (stringsTrimSpace t) = some r ∧
                amount * r = result := by
              unfold convertCurrency at hconv
              cases hl2 : rates.rates.lookup (stringsTrimSpace t) with
              | none => rw [hl2] at hconv; cases hconv
              | some r =>
                  rw [hl2] at hconv
                  injection hconv with h2
                  exact ⟨r, rfl, h2⟩
            have hrec : Event.historyAppend rec =
                Event.historyAppend
                  { Timestamp := now, FromCurrency := fromC
                    ToCurrency := stringsTrimSpace t, Amount := amount
                    Result := result
                    ExchangeRate := (rates.rates.lookup (stringsTrimSpace t)).getD 0
                    RateUpdateTime := ut } →
                rates.rates.lookup rec.ToCurrency = some rec.ExchangeRate ∧
                rec.Result = rec.Amount * rec.ExchangeRate := by
              intro h1
              injection h1 with h2
              subst h2
              constructor
              · simp [hl]
              · simp [hl, ← hr]
            by_cases hj : j = true
            · subst hj
              by_cases hm : (timeMarshalOK now && timeMarshalOK ut) = true
              · simp only [outputJSON, hm, if_true] at h
                rcases List.mem_cons.mp h with h1 | h1
                · exact hrec h1
                · rcases List.mem_append.mp h1 with h2 | h2
                  · simp at h2
                  · exact ih rec h2
              · simp only [outputJSON, hm, if_false] at h
                rcases List.mem_cons.mp h with h1 | h1
                · exact hrec h1
                · simp at h1
            · simp only [Bool.not_eq_true] at hj
              subst hj
              simp only [if_neg] at h
              rcases List.mem_cons.mp h with h1 | h1
              · exact hrec h1
              · rcases List.mem_cons.mp h1 with h2 | h2
                · exfalso
                  revert h2
                  split <;> intro h2 <;> cases h2
                · exact ih rec h2

/-- Same soundness through the conversion tail: any appended record comes
from the fetched snapshot, with a successful lookup for its target. -/
theorem historyAppend_runConversion (inp : MainInput) (j c : Bool)
    (pre : List Event) (fromC toRaw : String) (amount : Rat)
    (rec : ConversionRecord)
    (hpre : Event.historyAppend rec ∉ pre) :
    Event.historyAppend rec ∈ (runConversion inp j c pre fromC toRaw amount).1 →
    ∃ rates, inp.fetch fromC = .ok rates ∧
      rates.rates.lookup rec.ToCurrency = some rec.ExchangeRate ∧
      rec.Result = rec.Amount * rec.ExchangeRate := by
  unfold runConversion
  cases hf : inp.fetch fromC with
  | error e =>
      intro h
      exfalso
      simp only [List.mem_append] at h
      rcases h with ((h | h) | h) | h
      · exact hpre h
      · revert h
        split <;> intro h <;> simp at h
      · simp at h
      · revert h
        split <;> intro h <;> simp at h
  | ok rates =>
      intro h
      refine ⟨rates, rfl, ?_⟩
      simp only [List.mem_append] at h
      rcases h with ((h | h) | h) | h
      · exact absurd h hpre
      · exfalso
        revert h
        split <;> intro h <;> simp at h
      · exfalso
        simp at h
      · exact processTargets_append_sound j c amount fromC rates
          rates.time_last_updated inp.now (stringsSplitComma toRaw) rec h

/-- C9: in every execution, a record reaches the history only after a
successful rate lookup and multiplication for its target — the appended
record's rate is exactly the snapshot entry for its target currency and its
result the product with the amount; no append happens for a target whose
conversion errored (such a record would need a successful lookup). -/
theorem claimC9 (inp : MainInput) (rec : ConversionRecord)
    (h : Event.historyAppend rec ∈ (runMain inp).1) :
    ∃ rates, inp.fetch (fetchBase inp) = .ok rates ∧
      rates.rates.lookup rec.ToCurrency = some rec.ExchangeRate ∧
      rec.Result = rec.Amount * rec.ExchangeRate := by
  by_cases hh : inp.args.head? = some "--history"
  · exfalso
    simp only [runMain, if_pos hh] at h
    exact historyAppend_not_mem_showHistory _ _ h
  · simp only [runMain, if_neg hh] at h
    unfold fetchBase strippedArgs
    revert h
    cases hargs : (stripFlags inp.args false false).2.2 with
    | nil =>
        cases hp : inp.parseAmount inp.inputAmount with
        | none =>
            intro h
            exfalso
            simp only [hp] at h
            split_ifs at h <;> simp at h
        | some amt =>
            intro h
            simp only [hp] at h
            refine historyAppend_runConversion inp _ _ _ _ _ amt rec ?_ h
            intro hmem
            split_ifs at hmem <;> simp at hmem
    | cons a0 t0 =>
        cases t0 with
        | nil =>
            intro h
            exfalso
            split_ifs at h <;> simp at h
        | cons a1 t1 =>
            cases t1 with
            | nil =>
                intro h
                exfalso
                split_ifs at h <;> simp at h
            | cons a2 t2 =>
                cases t2 with
                | nil =>
                    cases hp : inp.parseAmount a2 with
                    | none =>
                        intro h
                        exfalso
                        simp only [hp] at h
                        split_ifs at h <;> simp at h
                    | some amt =>
                        intro h
                        simp only [hp] at h
                        refine historyAppend_runConversion inp _ _ _ _ _ amt
                          rec ?_ h
                        intro hmem
                        split_ifs at hmem <;> simp at hmem
                | cons a3 t3 =>
                    intro h
                    exfalso
                    split_ifs at h <;> simp at h

/-- The flag-stripping loop sets each flag exactly when the argument list
contains it and leaves exactly the non-flag arguments, in order. -/
theorem stripFlags_spec (args : List String) : ∀ j c : Bool,
    (stripFlags args j c).1 = (j || args.contains "--json") ∧
    (stripFlags args j c).2.1 = (c || args.contains "--csv") ∧
    (stripFlags args j c).2.2 =
      args.filter fun a => !(a == "--json" || a == "--csv") := by
  induction args with
  | nil => intro j c; simp [stripFlags]
  | cons a rest ih =>
      intro j c
      by_cases hj : a = "--json"
      · subst hj
        have h := ih true c
        simp [stripFlags, h.1, h.2.1, h.2.2]
      · by_cases hc : a = "--csv"
        · subst hc
          have h := ih j true
          simp [stripFlags, h.1, h.2.1, h.2.2]
        · have h := ih j c
          have hj2 : ¬"--json" = a := fun hx => hj hx.symm
          have hc2 : ¬"--csv" = a := fun hx => hc hx.symm
          simp [stripFlags, hj, hc, hj2, hc2, h.1, h.2.1, h.2.2]

/-- With the JSON presenter selected, the per-target loop emits no CSV line
and no structured error flagged as CSV. -/
theorem processTargets_json_events (c : Bool) (amount : Rat) (fromC : String)
    (rates : ExchangeRateResponse) (ut now : Int) :
    ∀ targets : List String,
      (∀ f t a r rr, Event.resultCSV f t a r rr ∉
          (processTargets true c amount fromC rates ut now targets).1) ∧
      (∀ m, Event.structuredError m false ∉
          (processTargets true c amount fromC rates ut now targets).1) := by
  intro targets
  induction targets with
  | nil => simp [processTargets]
  | cons t rest ih =>
      simp only [processTargets]
      by_cases he : stringsTrimSpace t = ""
      · rw [if_pos he]
        exact ih
      · rw [if_neg he]
        cases hconv : convertCurrency amount fromC (stringsTrimSpace t) rates with
        | error e =>
            constructor
            · intro f t2 a r rr hmem
              rcases List.mem_cons.mp hmem with h1 | h1
              · simp at h1
              · exact ih.1 f t2 a r rr h1
            · intro m hmem
              rcases List.mem_cons.mp hmem with h1 | h1
              · simp at h1
              · exact ih.2 m h1
        | ok result =>
            by_cases hm : (timeMarshalOK now && timeMarshalOK ut) = true
            · simp only [outputJSON, hm, if_true]
              constructor
              · intro f t2 a r rr hmem
                rcases List.mem_cons.mp hmem with h1 | h1
                · cases h1
                · rcases List.mem_append.mp h1 with h2 | h2
                  · simp at h2
                  · exact ih.1 f t2 a r rr h2
              · intro m hmem
                rcases List.mem_cons.mp hmem with h1 | h1
                · cases h1
                · rcases List.mem_append.mp h1 with h2 | h2
                  · simp at h2
                  · exact ih.2 m h2
            · simp only [outputJSON, hm, if_false]
              constructor
              · intro f t2 a r rr hmem
                rcases List.mem_cons.mp hmem with h1 | h1
                · cases h1
                · simp at h1
              · intro m hmem
                rcases List.mem_cons.mp hmem with h1 | h1
                · cases h1
                · simp at h1

/-- With the JSON presenter selected, the conversion tail emits no CSV line
and no structured error flagged as CSV (given the preceding events do not). -/
theorem runConversion_json_events (inp : MainInput) (c : Bool)
    (pre : List Event) (fromC toRaw : String) (amount : Rat)
    (hpre1 : ∀ f t a r rr, Event.resultCSV f t a r rr ∉ pre)
    (hpre2 : ∀ m, Event.structuredError m false ∉ pre) :
    (∀ f t a r rr, Event.resultCSV f t a r rr ∉
        (runConversion inp true c pre fromC toRaw amount).1) ∧
    (∀ m, Event.structuredError m false ∉
        (runConversion inp true c pre fromC toRaw amount).1) := by
  unfold runConversion
  cases hf : inp.fetch fromC with
  | error e =>
      constructor
      · intro f t a r rr hmem
        simp only [List.mem_append] at hmem
        rcases hmem with ((h | h) | h) | h
        · exact hpre1 f t a r rr h
        · simp at h
        · simp at h
        · simp at h
      · intro m hmem
        simp only [List.mem_append] at hmem
        rcases hmem with ((h | h) | h) | h
        · exact hpre2 m h
        · simp at h
        · simp at h
        · simp at h
  | ok rates =>
      constructor
      · intro f t a r rr hmem
        simp only [List.mem_append] at hmem
        rcases hmem with ((h | h) | h) | h
        · exact hpre1 f t a r rr h
        · simp at h
        · simp at h
        · exact (processTargets_json_events c amount fromC rates
            rates.time_last_updated inp.now (stringsSplitComma toRaw)).1
            f t a r rr h
      · intro m hmem
        simp only [List.mem_append] at hmem
        rcases hmem with ((h | h) | h) | h
        · exact hpre2 m h
        · simp at h
        · simp at h
        · exact (processTargets_json_events c amount fromC rates
            rates.time_last_updated inp.now (stringsSplitComma toRaw)).2 m h

/-- With `--json` among the arguments (and no `--history` command), the whole
run emits no CSV line and no structured error flagged as CSV: the JSON
presenter wins. -/
theorem runMain_json_events (inp : MainInput)
    (hh : ¬inp.args.head? = some "--history")
    (hs1 : (stripFlags inp.args false false).1 = true) :
    (∀ f t a r rr, Event.resultCSV f t a r rr ∉ (runMain inp).1) ∧
    (∀ m, Event.structuredError m false ∉ (runMain inp).1) := by
  simp only [runMain, if_neg hh, hs1]
  cases hargs : (stripFlags inp.args false false).2.2 with
  | nil =>
      cases hp : inp.parseAmount inp.inputAmount with
      | none =>
          simp only [hp]
          constructor
          · intro f t a r rr hmem
            simp at hmem
          · intro m hmem
            simp at hmem
      | some amt =>
          simp only [hp]
          refine runConversion_json_events inp _ _ _ _ amt ?_ ?_
          · intro f t a r rr hmem
            simp at hmem
          · intro m hmem
            simp at hmem
  | cons a0 t0 =>
      cases t0 with
      | nil =>
          constructor
          · intro f t a r rr hmem
            simp at hmem
          · intro m hmem
            simp at hmem
      | cons a1 t1 =>
          cases t1 with
          | nil =>
              constructor
              · intro f t a r rr hmem
                simp at hmem
              · intro m hmem
                simp at hmem
          | cons a2 t2 =>
              cases t2 with
              | nil =>
                  cases hp : inp.parseAmount a2 with
                  | none =>
                      simp only [hp]
                      constructor
                      · intro f t a r rr hmem
                        simp at hmem
                      · intro m hmem
                        simp at hmem
                  | some amt =>
                      simp only [hp]
                      refine runConversion_json_events inp _ _ _ _ amt ?_ ?_
                      · intro f t a r rr hmem
                        simp at hmem
                      · intro m hmem
                        simp at hmem
              | cons a3 t3 =>
                  constructor
                  · intro f t a r rr hmem
                    simp at hmem
                  · intro m hmem
                    simp at hmem

/-- C8 fails as stated: the argument list `["--history"]` strips to one
positional argument — neither zero nor three, which the claim says must
terminate with exit code 1 — yet the program (the `--history` short-circuit,
which the claim does not carve out) shows the history and exits 0. -/
theorem claimC8_counterexample :
    (strippedArgs ["--history"]).length ≠ 0 ∧
    (strippedArgs ["--history"]).length ≠ 3 ∧
    (runMain
      { argv0 := "prog"
        args := ["--history"]
        configFile := none
        historyFile := none
        parseAmount := fun _ => none
        fetch := fun _ => .error "down"
        inputFrom := ""
        inputTo := ""
        inputAmount := ""
        now := 0 }).2 = 0 :=
  ⟨by decide, by decide, rfl⟩

/-- C8 (amended): for every argument list that does not start with the
`--history` command, `--json`/`--csv` are recognized at any position and
removed before positional parsing (the flags are set exactly when present,
and the positional arguments are the flag-free ones in order); when both
flags are present the JSON presenter is chosen (no CSV output line and no
CSV-flagged error anywhere in the run); zero stripped positionals trigger
the interactive prompts; three are taken as from, to-list and amount and
feed the conversion tail; any other count exits with code 1. -/
theorem claimC8 (inp : MainInput)
    (hh : ¬inp.args.head? = some "--history") :
    (((stripFlags inp.args false false).1 = true ↔ "--json" ∈ inp.args) ∧
     ((stripFlags inp.args false false).2.1 = true ↔ "--csv" ∈ inp.args) ∧
     strippedArgs inp.args =
       inp.args.filter fun a => !(a == "--json" || a == "--csv")) ∧
    ("--json" ∈ inp.args → "--csv" ∈ inp.args →
      (∀ f t a r rr, Event.resultCSV f t a r rr ∉ (runMain inp).1) ∧
      (∀ m, Event.structuredError m false ∉ (runMain inp).1)) ∧
    (strippedArgs inp.args = [] →
      Event.promptInput "Введите сумму для конвертации: " ∈ (runMain inp).1) ∧
    (∀ a0 a1 a2, strippedArgs inp.args = [a0, a1, a2] →
      ∀ amt, inp.parseAmount a2 = some amt →
      runMain inp = runConversion inp (presenterFlags inp).1
        (presenterFlags inp).2
        (if !(presenterFlags inp).1 && !(presenterFlags inp).2 then
          [Event.printHeader] else [])
        (stringsToUpper a0) (stringsToUpper a1) amt) ∧
    ((strippedArgs inp.args).length ≠ 0 → (strippedArgs inp.args).length ≠ 3 →
      (runMain inp).2 = 1) := by
  have hspec := stripFlags_spec inp.args false false
  refine ⟨⟨?_, ?_, hspec.2.2⟩, ?_, ?_, ?_, ?_⟩
  · rw [hspec.1]
    simp [List.elem_iff]
  · rw [hspec.2.1]
    simp [List.elem_iff]
  · intro hj _
    have hs1 : (stripFlags inp.args false false).1 = true := by
      rw [hspec.1]
      simpa using List.elem_iff.mpr hj
    exact runMain_json_events inp hh hs1
  · intro hargs
    simp only [strippedArgs] at hargs
    simp only [runMain, if_neg hh, hargs]
    cases hp : inp.parseAmount inp.inputAmount with
    | none => simp [hp]
    | some amt =>
        simp only [hp]
        unfold runConversion
        cases hf : inp.fetch (if getInput inp.inputFrom = "" then (loadConfig inp.configFile).DefaultFrom else getInput inp.inputFrom) <;>
          simp [hf]
  · intro a0 a1 a2 hargs amt hamt
    simp only [strippedArgs] at hargs
    simp only [runMain, if_neg hh, hargs, hamt, presenterFlags]
  · intro h0 h3
    simp only [strippedArgs] at h0 h3
    simp only [runMain, if_neg hh]
    revert h0 h3
    cases hargs : (stripFlags inp.args false false).2.2 with
    | nil => intro h0 h3; simp at h0
    | cons a0 t0 =>
        cases t0 with
        | nil => intro h0 h3; simp
        | cons a1 t1 =>
            cases t1 with
            | nil => intro h0 h3; simp
            | cons a2 t2 =>
                cases t2 with
                | nil => intro h0 h3; simp at h3
                | cons a3 t3 => intro h0 h3; simp

/-- Witness for C8 with `--json --csv` and no positional arguments:
both flags are detected, no CSV event is emitted, and the interactive
amount prompt appears. -/
theorem claimC8_witness :
    ¬(["--json", "--csv"] : List String).head? = some "--history" ∧
    (stripFlags ["--json", "--csv"] false false).1 = true ∧
    Event.promptInput "Введите сумму для конвертации: " ∈
      (runMain
        { argv0 := "prog"
          args := ["--json", "--csv"]
          configFile := none
          historyFile := none
          parseAmount := fun _ => none
          fetch := fun _ => .error "down"
          inputFrom := "usd"
          inputTo := "eur"
          inputAmount := "x"
          now := 0 }).1 :=
  ⟨by decide, by decide,
    (claimC8
      { argv0 := "prog"
        args := ["--json", "--csv"]
        configFile := none
        historyFile := none
        parseAmount := fun _ => none
        fetch := fun _ => .error "down"
        inputFrom := "usd"
        inputTo := "eur"
        inputAmount := "x"
        now := 0 } (by decide)).2.2.1 (by decide)⟩

/-- Witness for C9: the record `100 USD = 9000 RUB` at rate 90 is appended
during the run, and its rate and result agree with the fetched snapshot. -/
theorem claimC9_witness :
    Event.historyAppend ⟨7, "USD", "RUB", 100, 100 * 90, 90, 5⟩ ∈
        (runMain witnessRunC9).1 ∧
    ∃ rates, witnessRunC9.fetch (fetchBase witnessRunC9) = .ok rates ∧
      rates.rates.lookup "RUB" = some 90 ∧
      (100 * 90 : Rat) = 100 * 90 := by
  have htrace : (runMain witnessRunC9).1 = [Event.printHeader,
      Event.loadingMsg, Event.fetchRates "USD",
      Event.historyAppend ⟨7, "USD", "RUB", 100, 100 * 90, 90, 5⟩,
      Event.resultText 100 "USD" (100 * 90) "RUB"] := rfl
  have hmem : Event.historyAppend ⟨7, "USD", "RUB", 100, 100 * 90, 90, 5⟩ ∈
      (runMain witnessRunC9).1 := by
    rw [htrace]
    simp
  refine ⟨hmem, ?_⟩
  simpa using claimC9 witnessRunC9 ⟨7, "USD", "RUB", 100, 100 * 90, 90, 5⟩ hmem

end CurrencyConverter
